import Mathlib

/-!
Verification of the MedBot repository (symptom extraction, knowledge-graph
query engine, and response generation) against its natural-language
specification.  Python strings are modelled as lists of character codes
(List Nat); floating-point scores are modelled as rationals.
-/

set_option maxHeartbeats 1000000

namespace MedBot

/-- A Python string, modelled as its list of character codes. -/
abbrev Str := List Nat

/-- Character codes of a Lean string literal, used to write concrete tokens. -/
def strToCodes (s : String) : Str := s.data.map Char.toNat

/-- Python str.lower for one character code (ASCII letters). -/
def toLowerCode (n : Nat) : Nat := if 65 ≤ n ∧ n ≤ 90 then n + 32 else n

/-- Python str.lower on a whole string. -/
def pyLower (s : Str) : Str := s.map toLowerCode

/-- Python whitespace characters stripped by str.strip(): space, tab,
newline, carriage return, vertical tab, form feed. -/
def isPySpace (n : Nat) : Bool :=
  n == 32 || n == 9 || n == 10 || n == 13 || n == 11 || n == 12

/-- Python str.strip(): remove leading and trailing whitespace. -/
def pyStrip (s : Str) : Str :=
  ((s.dropWhile isPySpace).reverse.dropWhile isPySpace).reverse

/-- Python str.replace(old, new) for single-character arguments. -/
def pyReplaceChar (old new : Nat) (s : Str) : Str :=
  s.map (fun c => if c = old then new else c)

/-- SymptomExtractor._normalize_symptom_name (src/nlp_processor.py line 150):
return symptom.lower().strip().replace(' ', '_').replace('-', '_').
Code 32 is the space, 45 the hyphen, 95 the underscore. -/
def _normalize_symptom_name (s : Str) : Str :=
  pyReplaceChar 45 95 (pyReplaceChar 32 95 (pyStrip (pyLower s)))

/-- Combined effect of the two character replacements of normalization:
spaces and hyphens become underscores, everything else is unchanged. -/
def sepSubst (c : Nat) : Nat := if c = 32 then 95 else if c = 45 then 95 else c

theorem toLowerCode_idem (n : Nat) : toLowerCode (toLowerCode n) = toLowerCode n := by
  unfold toLowerCode
  split_ifs <;> omega

theorem normalize_eq_map (s : Str) :
    _normalize_symptom_name s = (pyStrip (pyLower s)).map sepSubst := by
  unfold _normalize_symptom_name pyReplaceChar
  rw [List.map_map]
  apply List.map_congr_left
  intro c _
  by_cases h32 : c = 32
  · simp [h32, sepSubst]
  · by_cases h45 : c = 45
    · simp [h32, h45, sepSubst]
    · simp [h32, h45, sepSubst]

theorem sepSubst_ne_sep (c : Nat) : sepSubst c ≠ 32 ∧ sepSubst c ≠ 45 := by
  unfold sepSubst
  split_ifs <;> omega

theorem count_map_sepSubst (l : Str) :
    (l.map sepSubst).count 95 = l.count 32 + l.count 45 + l.count 95 := by
  induction l with
  | nil => simp
  | cons c t ih =>
    by_cases h32 : c = 32
    · simp [h32, sepSubst, List.count_cons, ih]; omega
    · by_cases h45 : c = 45
      · simp [h32, h45, sepSubst, List.count_cons, ih]; omega
      · by_cases h95 : c = 95
        · simp [h32, h45, h95, sepSubst, List.count_cons, ih]; omega
        · simp [h32, h45, h95, sepSubst, List.count_cons, ih]

theorem mem_dropWhile {p : Nat → Bool} {l : Str} {c : Nat}
    (h : c ∈ l.dropWhile p) : c ∈ l :=
  (List.dropWhile_sublist p).mem h

theorem mem_pyStrip {l : Str} {c : Nat} (h : c ∈ pyStrip l) : c ∈ l := by
  unfold pyStrip at h
  rw [List.mem_reverse] at h
  have h2 := mem_dropWhile h
  rw [List.mem_reverse] at h2
  exact mem_dropWhile h2

theorem head?_dropWhile_false {p : Nat → Bool} :
    ∀ (l : Str) (c : Nat), (l.dropWhile p).head? = some c → p c = false := by
  intro l
  induction l with
  | nil => intro c h; simp at h
  | cons a t ih =>
    intro c h
    by_cases hpa : p a
    · rw [List.dropWhile_cons_of_pos hpa] at h
      exact ih c h
    · rw [List.dropWhile_cons_of_neg hpa] at h
      simp at h
      subst h
      simp at hpa
      exact hpa

theorem getLast?_dropWhile {p : Nat → Bool} :
    ∀ (l : Str), l.dropWhile p = [] ∨ (l.dropWhile p).getLast? = l.getLast? := by
  intro l
  induction l with
  | nil => left; rfl
  | cons a t ih =>
    by_cases hpa : p a
    · rw [List.dropWhile_cons_of_pos hpa]
      rcases ih with h | h
      · left; exact h
      · rcases ht : t with _ | ⟨b, t2⟩
        · left; simpa [ht] using h
        · right
          rw [← ht, h, ht, List.getLast?_cons_cons]
    · right
      rw [List.dropWhile_cons_of_neg hpa]

theorem dropWhile_eq_self_of_head {p : Nat → Bool} (l : Str)
    (h : ∀ c, l.head? = some c → p c = false) : l.dropWhile p = l := by
  cases l with
  | nil => rfl
  | cons a t =>
    have := h a rfl
    simp [List.dropWhile_cons, this]

theorem pyStrip_head_false {l : Str} {c : Nat}
    (h : (pyStrip l).head? = some c) : isPySpace c = false := by
  unfold pyStrip at h
  rw [List.head?_reverse] at h
  rcases getLast?_dropWhile ((l.dropWhile isPySpace).reverse) with he | hl
  · rw [he] at h; simp at h
  · rw [hl, List.getLast?_reverse] at h
    exact head?_dropWhile_false _ c h

theorem pyStrip_getLast_false {l : Str} {c : Nat}
    (h : (pyStrip l).getLast? = some c) : isPySpace c = false := by
  unfold pyStrip at h
  rw [List.getLast?_reverse] at h
  exact head?_dropWhile_false _ c h

theorem pyStrip_eq_self (l : Str)
    (hh : ∀ c, l.head? = some c → isPySpace c = false)
    (hl : ∀ c, l.getLast? = some c → isPySpace c = false) :
    pyStrip l = l := by
  unfold pyStrip
  rw [dropWhile_eq_self_of_head l hh]
  have : l.reverse.dropWhile isPySpace = l.reverse := by
    apply dropWhile_eq_self_of_head
    intro c hc
    rw [List.head?_reverse] at hc
    exact hl c hc
  rw [this, List.reverse_reverse]

theorem isPySpace_95 : isPySpace 95 = false := by decide

theorem toLowerCode_95 : toLowerCode 95 = 95 := by decide

/-- Every character of a normalized name is a fixed point of the lowering,
not a space, and not a hyphen. -/
theorem normalize_char_shape {s : Str} {c : Nat}
    (h : c ∈ _normalize_symptom_name s) :
    toLowerCode c = c ∧ c ≠ 32 ∧ c ≠ 45 := by
  rw [normalize_eq_map] at h
  rcases List.mem_map.mp h with ⟨d, hd, hdc⟩
  have hdl : d ∈ pyLower s := mem_pyStrip hd
  rcases List.mem_map.mp hdl with ⟨e, _, hde⟩
  constructor
  · subst hdc
    unfold sepSubst
    split_ifs with h1 h2
    · exact toLowerCode_95
    · exact toLowerCode_95
    · rw [← hde]; exact toLowerCode_idem e
  · subst hdc; exact sepSubst_ne_sep d

theorem pyLower_normalize (s : Str) :
    pyLower (_normalize_symptom_name s) = _normalize_symptom_name s := by
  unfold pyLower
  trans (_normalize_symptom_name s).map id
  · apply List.map_congr_left
    intro c hc
    show toLowerCode c = id c
    simp only [id]
    exact (normalize_char_shape hc).1
  · exact List.map_id _

theorem sepSubst_head_false {s : Str} {c : Nat}
    (h : (_normalize_symptom_name s).head? = some c) : isPySpace c = false := by
  rw [normalize_eq_map, List.head?_map] at h
  rcases ho : (pyStrip (pyLower s)).head? with _ | d
  · rw [ho] at h; simp at h
  · rw [ho] at h
    simp at h
    have hd := pyStrip_head_false ho
    subst h
    unfold sepSubst
    split_ifs <;> first | exact isPySpace_95 | exact hd

theorem sepSubst_getLast_false {s : Str} {c : Nat}
    (h : (_normalize_symptom_name s).getLast? = some c) : isPySpace c = false := by
  rw [normalize_eq_map] at h
  rw [← List.head?_reverse, ← List.map_reverse, List.head?_map] at h
  rcases ho : (pyStrip (pyLower s)).reverse.head? with _ | d
  · rw [ho] at h; simp at h
  · rw [ho] at h
    simp at h
    rw [List.head?_reverse] at ho
    have hd := pyStrip_getLast_false ho
    subst h
    unfold sepSubst
    split_ifs <;> first | exact isPySpace_95 | exact hd

theorem pyStrip_normalize (s : Str) :
    pyStrip (_normalize_symptom_name s) = _normalize_symptom_name s := by
  apply pyStrip_eq_self
  · intro c hc; exact sepSubst_head_false hc
  · intro c hc; exact sepSubst_getLast_false hc

theorem pyReplaceChar_eq_self {old new : Nat} {l : Str}
    (h : ∀ c ∈ l, c ≠ old) : pyReplaceChar old new l = l := by
  unfold pyReplaceChar
  trans l.map id
  · apply List.map_congr_left
    intro c hc
    simp only [id]
    rw [if_neg (h c hc)]
  · exact List.map_id _

/-- C7: normalization is idempotent: normalizing an already-normalized
symptom name changes nothing. -/
theorem normalize_idempotent (s : Str) :
    _normalize_symptom_name (_normalize_symptom_name s)
      = _normalize_symptom_name s := by
  have step : _normalize_symptom_name (_normalize_symptom_name s) =
      pyReplaceChar 45 95 (pyReplaceChar 32 95
        (pyStrip (pyLower (_normalize_symptom_name s)))) := rfl
  rw [step, pyLower_normalize, pyStrip_normalize]
  rw [pyReplaceChar_eq_self (fun c hc => (normalize_char_shape hc).2.1)]
  rw [pyReplaceChar_eq_self (fun c hc => (normalize_char_shape hc).2.2)]

/-- C6 counterexample: on the input "a  b" (two consecutive internal
spaces) normalization produces "a__b", i.e. two separator characters,
not the single separator the specification requires. -/
theorem normalize_space_run_not_collapsed :
    _normalize_symptom_name (strToCodes "a  b") = strToCodes "a__b"
      ∧ ¬ ((_normalize_symptom_name (strToCodes "a  b")).count 95 = 1) := by
  constructor
  · rfl
  · decide

/-- C6 amended: normalization lowercases, trims leading and trailing
whitespace, and then replaces every space and every hyphen occurrence with
one underscore each (so a run of k spaces yields k underscores, and runs
are not collapsed); the output contains no space and no hyphen. -/
theorem normalize_characterization (s : Str) :
    _normalize_symptom_name s = (pyStrip (pyLower s)).map sepSubst
      ∧ (∀ c ∈ _normalize_symptom_name s, c ≠ 32 ∧ c ≠ 45)
      ∧ (_normalize_symptom_name s).count 95 =
          (pyStrip (pyLower s)).count 32 + (pyStrip (pyLower s)).count 45
            + (pyStrip (pyLower s)).count 95 := by
  refine ⟨normalize_eq_map s, ?_, ?_⟩
  · intro c hc
    exact (normalize_char_shape hc).2
  · rw [normalize_eq_map]
    exact count_map_sepSubst _

/-- Witness for the amended C6 theorem at a concrete input. -/
theorem normalize_characterization_witness :
    (97 : Nat) ≠ 32 ∧ (97 : Nat) ≠ 45 :=
  (normalize_characterization (strToCodes "a")).2.1 97 (by decide)

/-!
Stable descending sort by a key, the model of Python
list.sort(key=k, reverse=True): a stable merge sort that puts an element
with the larger key first and keeps the input order of key-equal elements.
-/

/-- Python list.sort(key=k, reverse=True). -/
def sortDescBy {α β : Type} [LinearOrder β] (k : α → β) (l : List α) : List α :=
  l.mergeSort (fun a b => decide (k b ≤ k a))

theorem sortDescBy_perm {α β : Type} [LinearOrder β] (k : α → β) (l : List α) :
    (sortDescBy k l).Perm l :=
  List.mergeSort_perm l _

theorem sortDescBy_pairwise {α β : Type} [LinearOrder β] (k : α → β) (l : List α) :
    (sortDescBy k l).Pairwise (fun a b => k b ≤ k a) := by
  unfold sortDescBy
  refine List.Pairwise.imp ?_ (List.sorted_mergeSort ?_ ?_ l)
  · intro a b h
    exact of_decide_eq_true h
  · intro a b c h1 h2
    rw [decide_eq_true_eq] at h1 h2 ⊢
    exact le_trans h2 h1
  · intro a b
    rw [Bool.or_eq_true, decide_eq_true_eq, decide_eq_true_eq]
    exact le_total (k b) (k a)

theorem pairwise_of_forall_mem {α : Type} {R : α → α → Prop} :
    ∀ (l : List α), (∀ a ∈ l, ∀ b ∈ l, R a b) → l.Pairwise R := by
  intro l
  induction l with
  | nil => intro _; exact List.Pairwise.nil
  | cons a t ih =>
    intro h
    refine List.Pairwise.cons ?_ (ih ?_)
    · intro b hb
      exact h a (by simp) b (by simp [hb])
    · intro x hx y hy
      exact h x (by simp [hx]) y (by simp [hy])

theorem sortDescBy_filter {α β : Type} [LinearOrder β] (k : α → β) (l : List α) (v : β) :
    (sortDescBy k l).filter (fun a => decide (k a = v))
      = l.filter (fun a => decide (k a = v)) := by
  have hperm : ((sortDescBy k l).filter (fun a => decide (k a = v))).Perm
      (l.filter (fun a => decide (k a = v))) :=
    (sortDescBy_perm k l).filter _
  have hmemv : ∀ a ∈ l.filter (fun a => decide (k a = v)), k a = v := by
    intro a ha
    exact of_decide_eq_true (List.mem_filter.mp ha).2
  have hpair : (l.filter (fun a => decide (k a = v))).Pairwise
      (fun a b => (fun x y => decide (k y ≤ k x)) a b = true) := by
    apply pairwise_of_forall_mem
    intro a ha b hb
    rw [decide_eq_true_eq, hmemv a ha, hmemv b hb]
  have hsub : List.Sublist (l.filter (fun a => decide (k a = v))) (sortDescBy k l) := by
    unfold sortDescBy
    refine List.sublist_mergeSort ?_ ?_ hpair (List.filter_sublist l)
    · intro a b c h1 h2
      rw [decide_eq_true_eq] at h1 h2 ⊢
      exact le_trans h2 h1
    · intro a b
      rw [Bool.or_eq_true, decide_eq_true_eq, decide_eq_true_eq]
      exact le_total (k b) (k a)
  have hsub2 : List.Sublist (l.filter (fun a => decide (k a = v)))
      ((sortDescBy k l).filter (fun a => decide (k a = v))) := by
    have h2 := hsub.filter (fun a => decide (k a = v))
    have h3 : (l.filter (fun a => decide (k a = v))).filter (fun a => decide (k a = v))
        = l.filter (fun a => decide (k a = v)) :=
      List.filter_eq_self.mpr (fun a ha => (List.mem_filter.mp ha).2)
    rwa [h3] at h2
  exact (hsub2.eq_of_length hperm.length_eq.symm).symm

/-!
The knowledge-graph query engine (src/query_engine.py).  The RDF graph is
modelled as a list of disease records carrying the data reachable from a
disease node: name, optional description and urgency literal, linked
symptom names, the optional treating specialty (with its optional
department), and precaution literals.
-/

/-- A med:Department node: departmentName plus optional location. -/
structure DeptEntry where
  name : Str
  location : Option Str
deriving DecidableEq

/-- A med:MedicalSpecialty node: specialtyName plus the optional
department it belongs to. -/
structure SpecialtyEntry where
  name : Str
  dept : Option DeptEntry
deriving DecidableEq

/-- A med:Disease node with everything the queries reach from it. -/
structure KGDisease where
  uri : Str
  name : Str
  description : Option Str
  urgency : Option Str
  symptoms : List Str
  treatedBy : Option SpecialtyEntry
  precautions : List Str
deriving DecidableEq

/-- One result dictionary of query_diseases_by_symptoms
(src/query_engine.py lines 159-168).  Fields that rank_diseases reads
through dict.get are Options, with none modelling an absent key. -/
structure RankedDisease where
  uri : Str
  name : Str
  description : Str
  urgency : Option Str
  symptoms : List Str
  matched_symptoms : List Str
  match_score : Option ℚ
  match_percentage : ℚ
deriving DecidableEq

/-- The urgency_priority dict lookup of rank_diseases (line 232), default 2. -/
def urgency_priority (u : Str) : ℕ :=
  if u = strToCodes "high" then 3
  else if u = strToCodes "medium" then 2
  else if u = strToCodes "low" then 1
  else 2

/-- urgency_priority.get(disease.get('urgency', 'medium').lower(), 2)
(line 235): a missing urgency defaults to medium, and the stored value is
lowercased before lookup. -/
def urgencyRank (u : Option Str) : ℕ :=
  urgency_priority (pyLower (u.getD (strToCodes "medium")))

/-- The sort key of rank_diseases (lines 234-237): (match_score,
urgency_score), compared lexicographically, missing score defaulting to 0. -/
def diseaseSortKey (d : RankedDisease) : ℚ ×ₗ ℕ :=
  toLex (d.match_score.getD 0, urgencyRank d.urgency)

/-- MedicalKnowledgeGraph.rank_diseases (lines 220-241):
diseases.sort(key=sort_key, reverse=True), a stable descending sort. -/
def rank_diseases (diseases : List RankedDisease) (_user_symptoms : List Str) :
    List RankedDisease :=
  sortDescBy diseaseSortKey diseases

/-- MedicalKnowledgeGraph._calculate_match_score (lines 199-218):
matched = set(user) & set(disease); score = min(matched / len(user) * 10, 10),
and 0.0 when either list is empty. -/
def _calculate_match_score (user_symptoms disease_symptoms : List Str) : ℚ :=
  if user_symptoms = [] ∨ disease_symptoms = [] then 0
  else
    min (((user_symptoms.dedup.filter
            (fun s => decide (s ∈ disease_symptoms))).length : ℚ)
          / (user_symptoms.length : ℚ) * 10) 10

/-- MedicalKnowledgeGraph.query_diseases_by_symptoms (lines 110-178):
empty input returns []; otherwise every disease sharing at least one
symptom name with the input becomes a result dictionary, and the results
are ranked by rank_diseases. -/
def query_diseases_by_symptoms (kg : List KGDisease) (symptom_names : List Str) :
    List RankedDisease :=
  if symptom_names = [] then []
  else
    rank_diseases
      ((kg.filter (fun d => d.symptoms.any (fun s => decide (s ∈ symptom_names)))).map
        (fun d =>
          let ms := _calculate_match_score symptom_names d.symptoms
          { uri := d.uri
            name := d.name
            description := d.description.getD []
            urgency := some (d.urgency.getD (strToCodes "medium"))
            symptoms := d.symptoms
            matched_symptoms := symptom_names.filter (fun s => decide (s ∈ d.symptoms))
            match_score := some ms
            match_percentage := ms * 10 }))
      symptom_names

/-- SPARQL lookup of the (first) disease node with the given URI. -/
def findDisease (kg : List KGDisease) (uri : Str) : Option KGDisease :=
  kg.find? (fun d => decide (d.uri = uri))

/-- MedicalKnowledgeGraph._get_disease_symptoms (lines 180-197): the
symptom names linked to the URI, [] when there are none. -/
def _get_disease_symptoms (kg : List KGDisease) (uri : Str) : List Str :=
  ((findDisease kg uri).map KGDisease.symptoms).getD []

/-- Result dict of get_specialty_for_disease (lines 300-306). -/
structure SpecialtyResult where
  specialty : Str
  department : Str
  location : Str
deriving DecidableEq

/-- MedicalKnowledgeGraph.get_specialty_for_disease (lines 282-310):
None when the disease or its treatedBy link is absent; a missing
department defaults to "General" and a missing location to
"Main Building". -/
def get_specialty_for_disease (kg : List KGDisease) (uri : Str) :
    Option SpecialtyResult :=
  (findDisease kg uri).bind (fun d =>
    d.treatedBy.map (fun sp =>
      { specialty := sp.name
        department := (sp.dept.map DeptEntry.name).getD (strToCodes "General")
        location := (sp.dept.bind DeptEntry.location).getD (strToCodes "Main Building") }))

/-- MedicalKnowledgeGraph.get_precautions_for_disease (lines 312-328):
the (possibly empty) list of med:hasPrecaution literals. -/
def get_precautions_for_disease (kg : List KGDisease) (uri : Str) : List Str :=
  ((findDisease kg uri).map KGDisease.precautions).getD []

/-- The dictionary returned by get_disease_details (lines 266-276). -/
structure DiseaseDetails where
  uri : Str
  name : Str
  description : Str
  urgency : Str
  symptoms : List Str
  specialty : Option SpecialtyResult
  precautions : List Str
deriving DecidableEq

/-- MedicalKnowledgeGraph.get_disease_details (lines 243-280): None when
the URI matches no disease, otherwise the enriched details dictionary. -/
def get_disease_details (kg : List KGDisease) (uri : Str) : Option DiseaseDetails :=
  (findDisease kg uri).map (fun d =>
    { uri := uri
      name := d.name
      description := d.description.getD []
      urgency := d.urgency.getD (strToCodes "medium")
      symptoms := _get_disease_symptoms kg uri
      specialty := get_specialty_for_disease kg uri
      precautions := get_precautions_for_disease kg uri })

/-- The two failure modes caught by _load_graph (lines 49-52):
FileNotFoundError and any other parsing exception. -/
inductive LoadFailure where
  | fileNotFound : LoadFailure
  | parseFailure : LoadFailure
deriving DecidableEq

/-- An RDF triple of the snapshot. -/
abbrev Triple := Str × Str × Str

/-- MedicalKnowledgeGraph._load_graph (lines 43-52): both except branches
only log, so a failed parse leaves the freshly created graph empty and
loading itself never raises. -/
def _load_graph (snapshot : Except LoadFailure (List Triple)) : List Triple :=
  match snapshot with
  | Except.ok g => g
  | Except.error _ => []

/-- C1: rank_diseases sorts any result list by match score descending,
breaking ties by urgency rank descending (high=3, medium=2, low=1, with
unknown or missing urgency defaulting to 2), and elements equal on both
keys keep their pre-sort relative order (stability, stated as: filtering
the output at any fixed sort-key value gives exactly the corresponding
filtering of the input). -/
theorem rank_diseases_spec (ds : List RankedDisease) (us : List Str) :
    (rank_diseases ds us).Perm ds
  ∧ (rank_diseases ds us).Pairwise (fun a b =>
      b.match_score.getD 0 ≤ a.match_score.getD 0
        ∧ (a.match_score.getD 0 = b.match_score.getD 0 →
             urgencyRank b.urgency ≤ urgencyRank a.urgency))
  ∧ (∀ (q : ℚ) (u : ℕ),
      (rank_diseases ds us).filter (fun d => decide (diseaseSortKey d = toLex (q, u)))
        = ds.filter (fun d => decide (diseaseSortKey d = toLex (q, u))))
  ∧ urgencyRank (some (strToCodes "high")) = 3
  ∧ urgencyRank (some (strToCodes "HIGH")) = 3
  ∧ urgencyRank (some (strToCodes "medium")) = 2
  ∧ urgencyRank (some (strToCodes "low")) = 1
  ∧ urgencyRank none = 2
  ∧ (∀ u : Str, pyLower u ≠ strToCodes "high" → pyLower u ≠ strToCodes "medium" →
      pyLower u ≠ strToCodes "low" → urgencyRank (some u) = 2) := by
  refine ⟨sortDescBy_perm _ _, ?_, ?_, by decide, by decide, by decide, by decide,
    by decide, ?_⟩
  · refine (sortDescBy_pairwise diseaseSortKey ds).imp ?_
    intro a b h
    unfold diseaseSortKey at h
    rw [Prod.Lex.le_iff] at h
    rcases h with hlt | ⟨heq, hle⟩
    · refine ⟨le_of_lt hlt, ?_⟩
      intro he
      rw [he] at hlt
      exact absurd hlt (lt_irrefl _)
    · exact ⟨le_of_eq heq, fun _ => hle⟩
  · intro q u
    exact sortDescBy_filter diseaseSortKey ds (toLex (q, u))
  · intro u h1 h2 h3
    unfold urgencyRank urgency_priority
    simp only [Option.getD_some]
    rw [if_neg h1, if_neg h2, if_neg h3]

/-- Witness for C1: an urgency string outside the priority dictionary
gets the default rank 2. -/
theorem rank_diseases_spec_witness : urgencyRank (some (strToCodes "odd")) = 2 :=
  (rank_diseases_spec [] []).2.2.2.2.2.2.2.2 (strToCodes "odd")
    (by decide) (by decide) (by decide)

theorem calc_score_bounds (user ds : List Str) :
    0 ≤ _calculate_match_score user ds ∧ _calculate_match_score user ds ≤ 10 := by
  unfold _calculate_match_score
  split_ifs with h
  · norm_num
  · constructor
    · apply le_min
      · positivity
      · norm_num
    · exact min_le_right _ _

/-- C2: for a non-empty duplicate-free input token list the match score is
the fraction of input tokens found among the disease symptoms, times 10 and
capped at 10; every ranked result carries match_percentage = match_score *
10, and scores and percentages lie in [0,10] and [0,100]. -/
theorem match_score_spec (user : List Str) (kg : List KGDisease) (hne : user ≠ []) :
    (user.Nodup → ∀ ds : List Str,
      _calculate_match_score user ds
        = min (((user.filter (fun s => decide (s ∈ ds))).length : ℚ)
             / (user.length : ℚ) * 10) 10)
  ∧ (∀ ds : List Str,
      0 ≤ _calculate_match_score user ds ∧ _calculate_match_score user ds ≤ 10)
  ∧ (∀ r ∈ query_diseases_by_symptoms kg user,
      r.match_percentage = r.match_score.getD 0 * 10
        ∧ 0 ≤ r.match_score.getD 0 ∧ r.match_score.getD 0 ≤ 10
        ∧ 0 ≤ r.match_percentage ∧ r.match_percentage ≤ 100) := by
  refine ⟨?_, fun ds => calc_score_bounds user ds, ?_⟩
  · intro hnd ds
    unfold _calculate_match_score
    by_cases hds : ds = []
    · rw [if_pos (Or.inr hds)]
      subst hds
      have hf : user.filter (fun s => decide (s ∈ ([] : List Str))) = [] := by simp
      rw [hf]
      norm_num
    · rw [if_neg (by push_neg; exact ⟨hne, hds⟩)]
      rw [List.dedup_eq_self.mpr hnd]
  · intro r hr
    unfold query_diseases_by_symptoms at hr
    rw [if_neg hne] at hr
    unfold rank_diseases at hr
    have hr2 := (sortDescBy_perm diseaseSortKey _).mem_iff.mp hr
    rcases List.mem_map.mp hr2 with ⟨d, _, heq⟩
    have hb := calc_score_bounds user d.symptoms
    subst heq
    refine ⟨rfl, ?_, ?_, ?_, ?_⟩
    · show (0 : ℚ) ≤ _calculate_match_score user d.symptoms
      exact hb.1
    · show _calculate_match_score user d.symptoms ≤ 10
      exact hb.2
    · show (0 : ℚ) ≤ _calculate_match_score user d.symptoms * 10
      have := hb.1
      linarith
    · show _calculate_match_score user d.symptoms * 10 ≤ 100
      have := hb.2
      linarith

/-- Witness for C2 at concrete inputs: the score formula for a singleton
input matching itself, and the score bounds against an empty symptom list. -/
theorem match_score_spec_witness :
    _calculate_match_score [strToCodes "a"] [strToCodes "a"]
      = min ((([strToCodes "a"].filter
            (fun s => decide (s ∈ [strToCodes "a"]))).length : ℚ)
          / (([strToCodes "a"] : List Str).length : ℚ) * 10) 10
    ∧ (0 ≤ _calculate_match_score [strToCodes "a"] []
        ∧ _calculate_match_score [strToCodes "a"] [] ≤ 10) :=
  ⟨(match_score_spec [strToCodes "a"] [] (by decide)).1 (by decide) [strToCodes "a"],
   (match_score_spec [strToCodes "a"] [] (by decide)).2.1 []⟩

/-- C5: a disease appears in query_diseases_by_symptoms only when it is
linked to at least one symptom of the input set, and its matched_symptoms
list is then non-empty. -/
theorem recall_filter_spec (kg : List KGDisease) (names : List Str) :
    ∀ r ∈ query_diseases_by_symptoms kg names,
      (∃ d ∈ kg, d.uri = r.uri ∧ d.symptoms = r.symptoms
          ∧ ∃ s ∈ d.symptoms, s ∈ names)
        ∧ r.matched_symptoms ≠ [] := by
  intro r hr
  unfold query_diseases_by_symptoms at hr
  by_cases hn : names = []
  · rw [if_pos hn] at hr
    simp at hr
  · rw [if_neg hn] at hr
    unfold rank_diseases at hr
    have hr2 := (sortDescBy_perm diseaseSortKey _).mem_iff.mp hr
    rcases List.mem_map.mp hr2 with ⟨d, hd, heq⟩
    rcases List.mem_filter.mp hd with ⟨hdkg, hcond⟩
    rcases List.any_eq_true.mp hcond with ⟨s, hs, hsn⟩
    have hsn2 : s ∈ names := of_decide_eq_true hsn
    subst heq
    refine ⟨⟨d, hdkg, rfl, rfl, s, hs, hsn2⟩, ?_⟩
    have hsm : s ∈ names.filter (fun s => decide (s ∈ d.symptoms)) :=
      List.mem_filter.mpr ⟨hsn2, decide_eq_true hs⟩
    exact List.ne_nil_of_mem hsm

/-- A concrete disease record used by the witnesses. -/
def demoDisease : KGDisease :=
  { uri := strToCodes "d1"
    name := strToCodes "Flu"
    description := none
    urgency := none
    symptoms := [strToCodes "fever"]
    treatedBy := none
    precautions := [] }

/-- The result record the query engine produces for demoDisease on the
input [fever]. -/
def demoResult : RankedDisease :=
  { uri := strToCodes "d1"
    name := strToCodes "Flu"
    description := []
    urgency := some (strToCodes "medium")
    symptoms := [strToCodes "fever"]
    matched_symptoms := [strToCodes "fever"]
    match_score := some 10
    match_percentage := 100 }

theorem demo_score :
    _calculate_match_score [strToCodes "fever"] [strToCodes "fever"] = 10 := by
  unfold _calculate_match_score
  rw [if_neg (by decide)]
  have h1 : ([strToCodes "fever"] : List Str).dedup.filter
      (fun s => decide (s ∈ ([strToCodes "fever"] : List Str))) = [strToCodes "fever"] := by
    decide
  rw [h1]
  norm_num

theorem demo_query :
    query_diseases_by_symptoms [demoDisease] [strToCodes "fever"] = [demoResult] := by
  unfold query_diseases_by_symptoms rank_diseases sortDescBy
  rw [if_neg (by decide)]
  have hfil : List.filter
      (fun d => d.symptoms.any (fun s => decide (s ∈ ([strToCodes "fever"] : List Str))))
      [demoDisease] = [demoDisease] := by decide
  rw [hfil, List.map_singleton, List.mergeSort_singleton]
  simp [demoDisease, demoResult, demo_score]
  norm_num

/-- Witness for C5 at a concrete one-disease graph. -/
theorem recall_filter_spec_witness :
    (∃ d ∈ [demoDisease], d.uri = demoResult.uri ∧ d.symptoms = demoResult.symptoms
        ∧ ∃ s ∈ d.symptoms, s ∈ [strToCodes "fever"])
      ∧ demoResult.matched_symptoms ≠ [] :=
  recall_filter_spec [demoDisease] [strToCodes "fever"] demoResult
    (by rw [demo_query]; exact List.mem_singleton_self _)

/-- C9: get_disease_details returns none exactly when no disease carries
the requested URI; for a found disease it returns a details record whose
specialty is the (possibly absent) specialty lookup and whose precautions
are the (possibly empty) precaution list, the lookups being total
functions. -/
theorem get_details_spec (kg : List KGDisease) (uri : Str) :
    ((∀ d ∈ kg, d.uri ≠ uri) → get_disease_details kg uri = none)
  ∧ (∀ d, findDisease kg uri = some d →
      ∃ det, get_disease_details kg uri = some det
        ∧ det.specialty = get_specialty_for_disease kg uri
        ∧ det.precautions = get_precautions_for_disease kg uri
        ∧ (d.treatedBy = none → det.specialty = none)
        ∧ (d.precautions = [] → det.precautions = [])) := by
  constructor
  · intro h
    have hfind : findDisease kg uri = none := by
      unfold findDisease
      rw [List.find?_eq_none]
      intro d hd
      simp only [decide_eq_true_eq]
      exact h d hd
    unfold get_disease_details
    rw [hfind]
    rfl
  · intro d hd
    refine ⟨{ uri := uri
              name := d.name
              description := d.description.getD []
              urgency := d.urgency.getD (strToCodes "medium")
              symptoms := _get_disease_symptoms kg uri
              specialty := get_specialty_for_disease kg uri
              precautions := get_precautions_for_disease kg uri },
            ?_, rfl, rfl, ?_, ?_⟩
    · unfold get_disease_details
      rw [hd]
      rfl
    · intro htb
      show get_specialty_for_disease kg uri = none
      unfold get_specialty_for_disease
      rw [hd]
      simp [htb]
    · intro hp
      show get_precautions_for_disease kg uri = []
      unfold get_precautions_for_disease
      rw [hd]
      simp [hp]

/-- Witness for C9: an unknown id yields none, a known one yields details
with the absent specialty and empty precautions of the stored disease. -/
theorem get_details_spec_witness :
    get_disease_details [demoDisease] (strToCodes "nope") = none
      ∧ ∃ det, get_disease_details [demoDisease] (strToCodes "d1") = some det
          ∧ det.specialty = get_specialty_for_disease [demoDisease] (strToCodes "d1")
          ∧ det.precautions = get_precautions_for_disease [demoDisease] (strToCodes "d1")
          ∧ (demoDisease.treatedBy = none → det.specialty = none)
          ∧ (demoDisease.precautions = [] → det.precautions = []) :=
  ⟨(get_details_spec [demoDisease] (strToCodes "nope")).1 (by decide),
   (get_details_spec [demoDisease] (strToCodes "d1")).2 demoDisease (by decide)⟩

/-- C3 counterexample: a missing snapshot file does not abort loading;
_load_graph swallows the error and the store proceeds with an empty graph
(0 triples), contradicting the required fatal LoadError. -/
theorem load_graph_error_not_fatal :
    _load_graph (Except.error LoadFailure.fileNotFound) = ([] : List Triple)
      ∧ (_load_graph (Except.error LoadFailure.fileNotFound)).length = 0 :=
  ⟨rfl, rfl⟩

/-- C3 amended: on a missing or malformed snapshot _load_graph logs and
returns, leaving the store empty; loading never raises and startup
proceeds (with the parsed graph on success). -/
theorem load_graph_spec (e : LoadFailure) (g : List Triple) :
    _load_graph (Except.error e) = [] ∧ _load_graph (Except.ok g) = g :=
  ⟨rfl, rfl⟩

/-!
The symptom extractor (src/nlp_processor.py).  The extractor state is the
normalized-to-original symptom dictionary and the synonym table, both
association lists; the spaCy noun chunks of the lowered input text are an
abstract parameter.  Python dict de-duplication is modelled by a left fold
that mirrors the insert-or-replace loop, values() order being first-insertion
order of each key.
-/

/-- Python substring membership, needle in hay. -/
def pyInStr (needle : Str) : Str → Bool
  | [] => needle.isEmpty
  | c :: t => needle.isPrefixOf (c :: t) || pyInStr needle t

/-- One extracted-symptom dictionary: symptom, normalized, confidence, method. -/
structure ExtractedSymptom where
  symptom : Str
  normalized : Str
  confidence : ℚ
  method : String
deriving DecidableEq

/-- The candidate stream of SymptomExtractor.extract_symptoms (lines
199-233) before de-duplication: exact matches (0.9), synonym matches
admitted after a vocabulary check (0.85), then noun chunks admitted after
a vocabulary check (0.7). -/
def extract_candidates (dict syns : List (Str × Str)) (chunks : List Str)
    (text : Str) : List ExtractedSymptom :=
  (dict.filterMap (fun kv =>
    if pyInStr kv.1 (pyLower text) || pyInStr (pyLower kv.2) (pyLower text) then
      some { symptom := kv.2, normalized := kv.1, confidence := 9/10,
             method := "exact_match" }
    else none))
  ++ (syns.filterMap (fun kv =>
    if pyInStr kv.1 (pyLower text) then
      match dict.lookup (_normalize_symptom_name kv.2) with
      | some v => some { symptom := v, normalized := _normalize_symptom_name kv.2,
                         confidence := 85/100, method := "synonym_match" }
      | none => none
    else none))
  ++ (chunks.filterMap (fun c =>
    match dict.lookup (_normalize_symptom_name (pyLower c)) with
    | some v => some { symptom := v, normalized := _normalize_symptom_name (pyLower c),
                       confidence := 7/10, method := "noun_chunk" }
    | none => none))

/-- One step of the dict-building loop of lines 236-240: insert an unseen
key at the end, replace the stored entry when the new confidence is
strictly greater. -/
def dedupStep (acc : List ExtractedSymptom) (e : ExtractedSymptom) :
    List ExtractedSymptom :=
  match acc.find? (fun a => decide (a.normalized = e.normalized)) with
  | none => acc ++ [e]
  | some a =>
    if a.confidence < e.confidence then
      acc.map (fun b => if b.normalized = e.normalized then e else b)
    else acc

/-- The unique_symptoms dict of lines 235-242, as its values() list. -/
def dedupMax (l : List ExtractedSymptom) : List ExtractedSymptom :=
  l.foldl dedupStep []

/-- SymptomExtractor.extract_symptoms (lines 171-249) in full NLP mode:
candidates, keep-highest-confidence de-duplication, then
result.sort(key=confidence, reverse=True). -/
def extract_symptoms (dict syns : List (Str × Str)) (chunks : List Str)
    (text : Str) : List ExtractedSymptom :=
  sortDescBy ExtractedSymptom.confidence
    (dedupMax (extract_candidates dict syns chunks text))

/-- The candidate stream of SymptomExtractor._fallback_extraction (lines
256-279): keyword matches (0.8) then synonym keyword matches (0.75). -/
def fallback_candidates (dict syns : List (Str × Str)) (text : Str) :
    List ExtractedSymptom :=
  (dict.filterMap (fun kv =>
    if pyInStr kv.1 (pyLower text) || pyInStr (pyLower kv.2) (pyLower text) then
      some { symptom := kv.2, normalized := kv.1, confidence := 8/10,
             method := "keyword_match" }
    else none))
  ++ (syns.filterMap (fun kv =>
    if pyInStr kv.1 (pyLower text) then
      match dict.lookup (_normalize_symptom_name kv.2) with
      | some v => some { symptom := v, normalized := _normalize_symptom_name kv.2,
                         confidence := 3/4, method := "synonym_keyword" }
      | none => none
    else none))

/-- One step of the fallback dict loop of lines 282-286: keep the first
entry seen for a key. -/
def dedupFirstStep (acc : List ExtractedSymptom) (e : ExtractedSymptom) :
    List ExtractedSymptom :=
  if acc.any (fun a => decide (a.normalized = e.normalized)) then acc
  else acc ++ [e]

/-- The fallback unique_symptoms dict of lines 281-288, as its values()
list. -/
def dedupFirst (l : List ExtractedSymptom) : List ExtractedSymptom :=
  l.foldl dedupFirstStep []

/-- SymptomExtractor._fallback_extraction (lines 251-288): candidates then
keep-first de-duplication, with no final sort. -/
def _fallback_extraction (dict syns : List (Str × Str)) (text : Str) :
    List ExtractedSymptom :=
  dedupFirst (fallback_candidates dict syns text)

/-- The order of first occurrences of each key in a stream: the values()
order of a Python dict built by repeated insertion. -/
def firstOccur : List Str → List Str
  | [] => []
  | k :: r => k :: firstOccur (r.filter (fun x => decide (¬ x = k)))
termination_by l => l.length
decreasing_by
  simp only [List.length_cons]
  exact Nat.lt_succ_of_le (List.length_filter_le _ r)

/-- The highest-confidence entry among e and the stream l, first among
equals (the running replace-if-strictly-greater of the dict loop). -/
def bestOf (e : ExtractedSymptom) (l : List ExtractedSymptom) : ExtractedSymptom :=
  l.foldl (fun cur x => if cur.confidence < x.confidence then x else cur) e

/-- Recursive characterization of dedupMax, used for the proofs: the head
key is resolved to its best entry and the remainder processed without it. -/
def dedupMaxRec : List ExtractedSymptom → List ExtractedSymptom
  | [] => []
  | e :: r =>
    bestOf e (r.filter (fun x => decide (x.normalized = e.normalized)))
      :: dedupMaxRec (r.filter (fun x => decide (¬ x.normalized = e.normalized)))
termination_by l => l.length
decreasing_by
  simp only [List.length_cons]
  exact Nat.lt_succ_of_le (List.length_filter_le _ r)

/-- Recursive characterization of dedupFirst. -/
def dedupFirstRec : List ExtractedSymptom → List ExtractedSymptom
  | [] => []
  | e :: r =>
    e :: dedupFirstRec (r.filter (fun x => decide (¬ x.normalized = e.normalized)))
termination_by l => l.length
decreasing_by
  simp only [List.length_cons]
  exact Nat.lt_succ_of_le (List.length_filter_le _ r)

theorem bestOf_mem : ∀ (l : List ExtractedSymptom) (e : ExtractedSymptom),
    bestOf e l ∈ e :: l := by
  intro l
  induction l with
  | nil => intro e; simp [bestOf]
  | cons x t ih =>
    intro e
    have hstep : bestOf e (x :: t) = bestOf (if e.confidence < x.confidence then x else e) t := rfl
    rw [hstep]
    rcases List.mem_cons.mp (ih (if e.confidence < x.confidence then x else e)) with h | h
    · rw [h]
      split_ifs
      · simp
      · simp
    · simp [h]

theorem bestOf_le : ∀ (l : List ExtractedSymptom) (e : ExtractedSymptom),
    e.confidence ≤ (bestOf e l).confidence
      ∧ ∀ x ∈ l, x.confidence ≤ (bestOf e l).confidence := by
  intro l
  induction l with
  | nil => intro e; exact ⟨le_refl _, by simp⟩
  | cons x t ih =>
    intro e
    have hstep : bestOf e (x :: t) = bestOf (if e.confidence < x.confidence then x else e) t := rfl
    rw [hstep]
    have hy := ih (if e.confidence < x.confidence then x else e)
    have he : e.confidence ≤ (if e.confidence < x.confidence then x else e).confidence := by
      split_ifs with h
      · exact le_of_lt h
      · exact le_refl _
    have hx : x.confidence ≤ (if e.confidence < x.confidence then x else e).confidence := by
      split_ifs with h
      · exact le_refl _
      · exact le_of_not_lt h
    refine ⟨le_trans he hy.1, ?_⟩
    intro z hz
    rcases List.mem_cons.mp hz with h | h
    · rw [h]; exact le_trans hx hy.1
    · exact hy.2 z h

theorem bestOf_key : ∀ (l : List ExtractedSymptom) (e : ExtractedSymptom) (k : Str),
    e.normalized = k → (∀ x ∈ l, x.normalized = k) →
    (bestOf e l).normalized = k := by
  intro l
  induction l with
  | nil => intro e k he _; exact he
  | cons x t ih =>
    intro e k he hall
    have hstep : bestOf e (x :: t) = bestOf (if e.confidence < x.confidence then x else e) t := rfl
    rw [hstep]
    refine ih _ k ?_ ?_
    · split_ifs
      · exact hall x (by simp)
      · exact he
    · intro z hz
      exact hall z (by simp [hz])

theorem map_key_filter_ne (l : List ExtractedSymptom) (k : Str) :
    (l.filter (fun x => decide (¬ x.normalized = k))).map ExtractedSymptom.normalized
      = (l.map ExtractedSymptom.normalized).filter (fun x => decide (¬ x = k)) := by
  induction l with
  | nil => rfl
  | cons a t ih =>
    simp only [decide_not] at ih
    by_cases h : a.normalized = k
    · simp [List.filter_cons, h, ih]
    · simp [List.filter_cons, h, ih]

theorem mem_firstOccur : ∀ (l : List Str) (x : Str), x ∈ firstOccur l → x ∈ l := by
  intro l
  induction l using firstOccur.induct with
  | case1 => intro x hx; simp [firstOccur] at hx
  | case2 k r ih =>
    intro x hx
    rw [firstOccur] at hx
    rcases List.mem_cons.mp hx with h | h
    · simp [h]
    · have := ih x h
      exact List.mem_cons_of_mem _ (List.mem_of_mem_filter this)

theorem firstOccur_nodup : ∀ (l : List Str), (firstOccur l).Nodup := by
  intro l
  induction l using firstOccur.induct with
  | case1 => simp [firstOccur]
  | case2 k r ih =>
    rw [firstOccur]
    refine List.Nodup.cons ?_ ih
    intro hk
    have := mem_firstOccur _ _ hk
    have := List.of_mem_filter this
    simp at this

theorem dedupMaxRec_keys : ∀ l : List ExtractedSymptom,
    (dedupMaxRec l).map ExtractedSymptom.normalized
      = firstOccur (l.map ExtractedSymptom.normalized) := by
  intro l
  induction l using dedupMaxRec.induct with
  | case1 => simp [dedupMaxRec, firstOccur]
  | case2 e r ih =>
    rw [dedupMaxRec, List.map_cons, List.map_cons, firstOccur]
    congr 1
    · refine bestOf_key _ _ _ rfl ?_
      intro x hx
      exact of_decide_eq_true (List.mem_filter.mp hx).2
    · rw [ih, map_key_filter_ne]

theorem dedupMaxRec_max : ∀ l : List ExtractedSymptom, ∀ y ∈ dedupMaxRec l,
    y ∈ l ∧ ∀ x ∈ l, x.normalized = y.normalized → x.confidence ≤ y.confidence := by
  intro l
  induction l using dedupMaxRec.induct with
  | case1 => intro y hy; simp [dedupMaxRec] at hy
  | case2 e r ih =>
    intro y hy
    rw [dedupMaxRec] at hy
    have hkeyfil : ∀ x ∈ r.filter (fun x => decide (x.normalized = e.normalized)),
        x.normalized = e.normalized :=
      fun x hx => of_decide_eq_true (List.mem_filter.mp hx).2
    rcases List.mem_cons.mp hy with h | h
    · subst h
      have hbk : (bestOf e (r.filter (fun x => decide (x.normalized = e.normalized)))).normalized
          = e.normalized := bestOf_key _ _ _ rfl hkeyfil
      constructor
      · rcases List.mem_cons.mp (bestOf_mem _ e) with h2 | h2
        · rw [h2]; simp
        · exact List.mem_cons_of_mem _ (List.mem_of_mem_filter h2)
      · intro x hx hkey
        rw [hbk] at hkey
        rcases List.mem_cons.mp hx with h2 | h2
        · rw [h2]; exact (bestOf_le _ e).1
        · refine (bestOf_le _ e).2 x ?_
          exact List.mem_filter.mpr ⟨h2, decide_eq_true hkey⟩
    · have hrec := ih y h
      have hymem : y ∈ r.filter (fun x => decide (¬ x.normalized = e.normalized)) := hrec.1
      have hyne : ¬ y.normalized = e.normalized :=
        of_decide_eq_true (List.mem_filter.mp hymem).2
      constructor
      · exact List.mem_cons_of_mem _ (List.mem_of_mem_filter hymem)
      · intro x hx hkey
        rcases List.mem_cons.mp hx with h2 | h2
        · exfalso
          apply hyne
          rw [← hkey, h2]
        · refine hrec.2 x ?_ hkey
          refine List.mem_filter.mpr ⟨h2, decide_eq_true ?_⟩
          intro hc
          exact hyne (hkey ▸ hc)

theorem dedupFirst_go : ∀ (l acc : List ExtractedSymptom),
    l.foldl dedupFirstStep acc
      = acc ++ dedupFirstRec (l.filter
          (fun x => decide (¬ x.normalized ∈ acc.map ExtractedSymptom.normalized))) := by
  intro l
  induction l with
  | nil =>
    intro acc
    simp [dedupFirstRec]
  | cons e r ih =>
    intro acc
    rw [List.foldl_cons]
    by_cases hmem : e.normalized ∈ acc.map ExtractedSymptom.normalized
    · have hstep : dedupFirstStep acc e = acc := by
        unfold dedupFirstStep
        rw [if_pos ?_]
        rcases List.mem_map.mp hmem with ⟨a, ha, hka⟩
        exact List.any_eq_true.mpr ⟨a, ha, decide_eq_true hka⟩
      rw [hstep, ih acc]
      have hfe : (e :: r).filter
          (fun x => decide (¬ x.normalized ∈ acc.map ExtractedSymptom.normalized))
          = r.filter (fun x => decide (¬ x.normalized ∈ acc.map ExtractedSymptom.normalized)) := by
        rw [List.filter_cons]
        simp [hmem]
      rw [hfe]
    · have hstep : dedupFirstStep acc e = acc ++ [e] := by
        unfold dedupFirstStep
        rw [if_neg ?_]
        intro hany
        rcases List.any_eq_true.mp hany with ⟨a, ha, hka⟩
        exact hmem (List.mem_map.mpr ⟨a, ha, of_decide_eq_true hka⟩)
      rw [hstep, ih (acc ++ [e])]
      have hfe : (e :: r).filter
          (fun x => decide (¬ x.normalized ∈ acc.map ExtractedSymptom.normalized))
          = e :: r.filter (fun x => decide (¬ x.normalized ∈ acc.map ExtractedSymptom.normalized)) := by
        rw [List.filter_cons]
        simp [hmem]
      rw [hfe, dedupFirstRec, List.append_assoc, List.singleton_append]
      congr 2
      rw [List.filter_filter]
      congr 1
      apply List.filter_congr
      intro x _
      rw [List.map_append, List.map_singleton]
      by_cases h1 : x.normalized = e.normalized <;>
        by_cases h2 : x.normalized ∈ acc.map ExtractedSymptom.normalized <;>
        simp [h1, h2]

theorem dedupMax_go : ∀ (l acc : List ExtractedSymptom),
    (acc.map ExtractedSymptom.normalized).Nodup →
    l.foldl dedupStep acc
      = acc.map (fun a => bestOf a (l.filter (fun x => decide (x.normalized = a.normalized))))
        ++ dedupMaxRec (l.filter
            (fun x => decide (¬ x.normalized ∈ acc.map ExtractedSymptom.normalized))) := by
  intro l
  induction l with
  | nil =>
    intro acc _
    simp only [List.foldl_nil, List.filter_nil, dedupMaxRec, List.append_nil]
    trans acc.map id
    · exact (List.map_id _).symm
    · apply List.map_congr_left
      intro a _
      rfl
  | cons e r ih =>
    intro acc hacc
    rw [List.foldl_cons]
    cases hfind : acc.find? (fun a => decide (a.normalized = e.normalized)) with
    | none =>
      have hnm : ¬ e.normalized ∈ acc.map ExtractedSymptom.normalized := by
        intro hm
        rcases List.mem_map.mp hm with ⟨a, ha, hka⟩
        have := List.find?_eq_none.mp hfind a ha
        simp [hka] at this
      have hstep : dedupStep acc e = acc ++ [e] := by
        unfold dedupStep
        rw [hfind]
      rw [hstep]
      have hacc2 : ((acc ++ [e]).map ExtractedSymptom.normalized).Nodup := by
        rw [List.map_append, List.map_singleton]
        refine List.Nodup.append hacc (List.nodup_singleton _) ?_
        intro x hx hx2
        rw [List.mem_singleton] at hx2
        rw [hx2] at hx
        exact hnm hx
      rw [ih (acc ++ [e]) hacc2]
      have hfe : (e :: r).filter
          (fun x => decide (¬ x.normalized ∈ acc.map ExtractedSymptom.normalized))
          = e :: r.filter
              (fun x => decide (¬ x.normalized ∈ acc.map ExtractedSymptom.normalized)) := by
        rw [List.filter_cons]
        simp [hnm]
      rw [hfe, dedupMaxRec, List.map_append, List.map_singleton, List.append_assoc,
        List.singleton_append]
      congr 1
      · apply List.map_congr_left
        intro a ha
        have hane : ¬ (e.normalized = a.normalized) := by
          intro hh
          exact hnm (List.mem_map.mpr ⟨a, ha, hh.symm⟩)
        rw [List.filter_cons]
        simp [hane]
      · congr 1
        · congr 1
          rw [List.filter_filter]
          symm
          apply List.filter_congr
          intro x _
          by_cases h1 : x.normalized = e.normalized
          · simp [h1]
            intro y hy hk
            exact hnm (List.mem_map.mpr ⟨y, hy, hk⟩)
          · simp [h1]
        · congr 1
          rw [List.filter_filter]
          congr 1
          funext x
          rw [List.map_append, List.map_singleton]
          by_cases h1 : x.normalized = e.normalized <;>
            by_cases h2 : x.normalized ∈ acc.map ExtractedSymptom.normalized <;>
            simp [h1, h2]
    | some a0 =>
      have ha0mem : a0 ∈ acc := List.mem_of_find?_eq_some hfind
      have ha0key : a0.normalized = e.normalized := by
        have hp0 := @List.find?_some _ (fun a => decide (a.normalized = e.normalized)) a0 _ hfind
        exact of_decide_eq_true hp0
      have huniq : ∀ b ∈ acc, b.normalized = e.normalized → b = a0 := by
        intro b hb hkb
        exact List.inj_on_of_nodup_map hacc hb ha0mem (hkb.trans ha0key.symm)
      have hemem : e.normalized ∈ acc.map ExtractedSymptom.normalized :=
        List.mem_map.mpr ⟨a0, ha0mem, ha0key⟩
      have hcons : (e :: r).filter
          (fun x => decide (¬ x.normalized ∈ acc.map ExtractedSymptom.normalized))
          = r.filter
              (fun x => decide (¬ x.normalized ∈ acc.map ExtractedSymptom.normalized)) := by
        rw [List.filter_cons]
        simp [hemem]
      by_cases hlt : a0.confidence < e.confidence
      · have hstep : dedupStep acc e
            = acc.map (fun b => if b.normalized = e.normalized then e else b) := by
          unfold dedupStep
          rw [hfind]
          exact if_pos hlt
        rw [hstep]
        have hkeys : ((acc.map (fun b => if b.normalized = e.normalized then e else b)).map
            ExtractedSymptom.normalized) = acc.map ExtractedSymptom.normalized := by
          rw [List.map_map]
          apply List.map_congr_left
          intro b _
          by_cases hb : b.normalized = e.normalized
          · simp only [Function.comp_apply, if_pos hb]
            exact hb.symm
          · simp only [Function.comp_apply, if_neg hb]
        rw [ih _ (by rw [hkeys]; exact hacc), hkeys, hcons]
        congr 1
        rw [List.map_map]
        apply List.map_congr_left
        intro b hb
        simp only [Function.comp_apply]
        by_cases hkb : b.normalized = e.normalized
        · have hba0 : b = a0 := huniq b hb hkb
          rw [if_pos hkb, List.filter_cons]
          have hte : decide (e.normalized = b.normalized) = true := by
            simp [hkb.symm]
          rw [hte]
          simp only [if_pos]
          have hswap : bestOf b (e :: r.filter (fun x => decide (x.normalized = b.normalized)))
              = bestOf (if b.confidence < e.confidence then e else b)
                  (r.filter (fun x => decide (x.normalized = b.normalized))) := rfl
          rw [hswap, if_pos (by rw [hba0]; exact hlt)]
          congr 1
          apply List.filter_congr
          intro x _
          simp [hkb]
        · rw [if_neg hkb, List.filter_cons]
          have hte : decide (e.normalized = b.normalized) = false := by
            simp
            intro hh
            exact hkb hh.symm
          rw [hte]
          simp only [Bool.false_eq_true, if_neg, ite_false]
      · have hstep : dedupStep acc e = acc := by
          unfold dedupStep
          rw [hfind]
          exact if_neg hlt
        rw [hstep, ih acc hacc, hcons]
        congr 1
        apply List.map_congr_left
        intro b hb
        by_cases hkb : b.normalized = e.normalized
        · have hba0 : b = a0 := huniq b hb hkb
          rw [List.filter_cons]
          have hte : decide (e.normalized = b.normalized) = true := by
            simp [hkb.symm]
          rw [hte]
          simp only [if_pos]
          have hswap : bestOf b (e :: r.filter (fun x => decide (x.normalized = b.normalized)))
              = bestOf (if b.confidence < e.confidence then e else b)
                  (r.filter (fun x => decide (x.normalized = b.normalized))) := rfl
          rw [hswap, if_neg (by rw [hba0]; exact hlt)]
        · rw [List.filter_cons]
          have hte : decide (e.normalized = b.normalized) = false := by
            simp
            intro hh
            exact hkb hh.symm
          rw [hte]
          simp only [Bool.false_eq_true, if_neg, ite_false]

theorem dedupMax_eq_rec (l : List ExtractedSymptom) : dedupMax l = dedupMaxRec l := by
  unfold dedupMax
  rw [dedupMax_go l [] (by simp)]
  have hf : l.filter
      (fun x => decide (¬ x.normalized ∈ ([] : List ExtractedSymptom).map
        ExtractedSymptom.normalized)) = l := by
    apply List.filter_eq_self.mpr
    intro a _
    simp
  rw [hf]
  simp

theorem dedupFirst_eq_rec (l : List ExtractedSymptom) : dedupFirst l = dedupFirstRec l := by
  unfold dedupFirst
  rw [dedupFirst_go l []]
  have hf : l.filter
      (fun x => decide (¬ x.normalized ∈ ([] : List ExtractedSymptom).map
        ExtractedSymptom.normalized)) = l := by
    apply List.filter_eq_self.mpr
    intro a _
    simp
  rw [hf]
  simp

theorem dedupFirstRec_keys : ∀ l : List ExtractedSymptom,
    (dedupFirstRec l).map ExtractedSymptom.normalized
      = firstOccur (l.map ExtractedSymptom.normalized) := by
  intro l
  induction l using dedupFirstRec.induct with
  | case1 => simp [dedupFirstRec, firstOccur]
  | case2 e r ih =>
    rw [dedupFirstRec, List.map_cons, List.map_cons, firstOccur]
    congr 1
    rw [ih, map_key_filter_ne]

theorem dedupFirstRec_sublist : ∀ l : List ExtractedSymptom,
    List.Sublist (dedupFirstRec l) l := by
  intro l
  induction l using dedupFirstRec.induct with
  | case1 => simp [dedupFirstRec]
  | case2 e r ih =>
    rw [dedupFirstRec]
    exact List.Sublist.cons₂ e (ih.trans (List.filter_sublist r))

theorem dedupFirstRec_max : ∀ l : List ExtractedSymptom,
    l.Pairwise (fun a b => b.confidence ≤ a.confidence) →
    ∀ y ∈ dedupFirstRec l,
      y ∈ l ∧ ∀ x ∈ l, x.normalized = y.normalized → x.confidence ≤ y.confidence := by
  intro l
  induction l using dedupFirstRec.induct with
  | case1 => intro _ y hy; simp [dedupFirstRec] at hy
  | case2 e r ih =>
    intro hpair y hy
    have hhead := (List.pairwise_cons.mp hpair).1
    have htail := (List.pairwise_cons.mp hpair).2
    rw [dedupFirstRec] at hy
    rcases List.mem_cons.mp hy with h | h
    · subst h
      refine ⟨by simp, ?_⟩
      intro x hx _
      rcases List.mem_cons.mp hx with h2 | h2
      · rw [h2]
      · exact hhead x h2
    · have hrec := ih (htail.sublist (List.filter_sublist r)) y h
      have hymem : y ∈ r.filter (fun x => decide (¬ x.normalized = e.normalized)) := hrec.1
      have hyne : ¬ y.normalized = e.normalized :=
        of_decide_eq_true (List.mem_filter.mp hymem).2
      refine ⟨List.mem_cons_of_mem _ (List.mem_of_mem_filter hymem), ?_⟩
      intro x hx hkey
      rcases List.mem_cons.mp hx with h2 | h2
      · exfalso
        apply hyne
        rw [← hkey, h2]
      · refine hrec.2 x ?_ hkey
        refine List.mem_filter.mpr ⟨h2, decide_eq_true ?_⟩
        intro hc
        exact hyne (hkey ▸ hc)

theorem lookup_isSome_of_key_mem :
    ∀ (dict : List (Str × Str)) (k : Str), k ∈ dict.map Prod.fst →
      (dict.lookup k).isSome = true := by
  intro dict
  induction dict with
  | nil => intro k hk; simp at hk
  | cons kv t ih =>
    rcases kv with ⟨k1, v1⟩
    intro k hk
    by_cases hbeq : k = k1
    · have ht : (k == k1) = true := by simp [hbeq]
      simp [List.lookup, ht]
    · have hne : (k == k1) = false := by simp [hbeq]
      rw [List.map_cons] at hk
      rcases List.mem_cons.mp hk with h | h
      · exact absurd h hbeq
      · have hstep : List.lookup k ((k1, v1) :: t) = List.lookup k t := by
          simp [List.lookup, hne]
        rw [hstep]
        exact ih k h

theorem mem_fbA {dict : List (Str × Str)} {text : Str} {e : ExtractedSymptom}
    (h : e ∈ dict.filterMap (fun kv =>
      if pyInStr kv.1 (pyLower text) || pyInStr (pyLower kv.2) (pyLower text) then
        some { symptom := kv.2, normalized := kv.1, confidence := 8/10,
               method := "keyword_match" }
      else none)) :
    e.confidence = 8/10 ∧ e.normalized ∈ dict.map Prod.fst := by
  rcases List.mem_filterMap.mp h with ⟨kv, hkv, hf⟩
  split at hf
  · cases hf
    exact ⟨rfl, List.mem_map.mpr ⟨kv, hkv, rfl⟩⟩
  · cases hf

theorem mem_fbB {dict syns : List (Str × Str)} {text : Str} {e : ExtractedSymptom}
    (h : e ∈ syns.filterMap (fun kv =>
      if pyInStr kv.1 (pyLower text) then
        match dict.lookup (_normalize_symptom_name kv.2) with
        | some v => some { symptom := v, normalized := _normalize_symptom_name kv.2,
                           confidence := 3/4, method := "synonym_keyword" }
        | none => none
      else none)) :
    e.confidence = 3/4 ∧ (dict.lookup e.normalized).isSome = true := by
  rcases List.mem_filterMap.mp h with ⟨kv, hkv, hf⟩
  split at hf
  · split at hf
    · cases hf
      rename_i hlook
      exact ⟨rfl, by rw [hlook]; rfl⟩
    · cases hf
  · cases hf

theorem mem_exA {dict : List (Str × Str)} {text : Str} {e : ExtractedSymptom}
    (h : e ∈ dict.filterMap (fun kv =>
      if pyInStr kv.1 (pyLower text) || pyInStr (pyLower kv.2) (pyLower text) then
        some { symptom := kv.2, normalized := kv.1, confidence := 9/10,
               method := "exact_match" }
      else none)) :
    e.normalized ∈ dict.map Prod.fst := by
  rcases List.mem_filterMap.mp h with ⟨kv, hkv, hf⟩
  split at hf
  · cases hf
    exact List.mem_map.mpr ⟨kv, hkv, rfl⟩
  · cases hf

theorem mem_exB {dict syns : List (Str × Str)} {text : Str} {e : ExtractedSymptom}
    (h : e ∈ syns.filterMap (fun kv =>
      if pyInStr kv.1 (pyLower text) then
        match dict.lookup (_normalize_symptom_name kv.2) with
        | some v => some { symptom := v, normalized := _normalize_symptom_name kv.2,
                           confidence := 85/100, method := "synonym_match" }
        | none => none
      else none)) :
    (dict.lookup e.normalized).isSome = true := by
  rcases List.mem_filterMap.mp h with ⟨kv, hkv, hf⟩
  split at hf
  · split at hf
    · cases hf
      rename_i hlook
      rw [hlook]
      rfl
    · cases hf
  · cases hf

theorem mem_exC {dict : List (Str × Str)} {chunks : List Str} {e : ExtractedSymptom}
    (h : e ∈ chunks.filterMap (fun c =>
      match dict.lookup (_normalize_symptom_name (pyLower c)) with
      | some v => some { symptom := v, normalized := _normalize_symptom_name (pyLower c),
                         confidence := 7/10, method := "noun_chunk" }
      | none => none)) :
    (dict.lookup e.normalized).isSome = true := by
  rcases List.mem_filterMap.mp h with ⟨c, hc, hf⟩
  split at hf
  · cases hf
    rename_i hlook
    rw [hlook]
    rfl
  · cases hf

theorem fallback_cands_pairwise (dict syns : List (Str × Str)) (text : Str) :
    (fallback_candidates dict syns text).Pairwise
      (fun a b => b.confidence ≤ a.confidence) := by
  unfold fallback_candidates
  rw [List.pairwise_append]
  refine ⟨?_, ?_, ?_⟩
  · apply pairwise_of_forall_mem
    intro a ha b hb
    rw [(mem_fbA ha).1, (mem_fbA hb).1]
  · apply pairwise_of_forall_mem
    intro a ha b hb
    rw [(mem_fbB ha).1, (mem_fbB hb).1]
  · intro a ha b hb
    rw [(mem_fbA ha).1, (mem_fbB hb).1]
    norm_num

/-- C4: in both modes extraction yields at most one entry per normalized
token (Nodup keys); each surviving entry carries the maximal confidence of
its token's candidate occurrences; the output is sorted by confidence
descending (in fallback mode because candidate confidences 0.8 then 0.75
are emitted in non-increasing order); ties keep first-seen order, stated
as filter-level stability towards the de-duplicated stream together with
the first-occurrence characterization of the key order. -/
theorem extract_symptoms_spec (dict syns : List (Str × Str)) (chunks : List Str)
    (text : Str) :
    ((extract_symptoms dict syns chunks text).map ExtractedSymptom.normalized).Nodup
  ∧ (∀ e ∈ extract_symptoms dict syns chunks text,
      e ∈ extract_candidates dict syns chunks text
        ∧ ∀ x ∈ extract_candidates dict syns chunks text,
            x.normalized = e.normalized → x.confidence ≤ e.confidence)
  ∧ (extract_symptoms dict syns chunks text).Pairwise
      (fun a b => b.confidence ≤ a.confidence)
  ∧ (∀ q : ℚ, (extract_symptoms dict syns chunks text).filter
        (fun e => decide (e.confidence = q))
      = (dedupMax (extract_candidates dict syns chunks text)).filter
          (fun e => decide (e.confidence = q)))
  ∧ (dedupMax (extract_candidates dict syns chunks text)).map ExtractedSymptom.normalized
      = firstOccur ((extract_candidates dict syns chunks text).map ExtractedSymptom.normalized)
  ∧ ((_fallback_extraction dict syns text).map ExtractedSymptom.normalized).Nodup
  ∧ (∀ e ∈ _fallback_extraction dict syns text,
      e ∈ fallback_candidates dict syns text
        ∧ (∀ x ∈ fallback_candidates dict syns text,
            x.normalized = e.normalized → x.confidence ≤ e.confidence)
        ∧ (e.confidence = 8/10 ∨ e.confidence = 3/4))
  ∧ (_fallback_extraction dict syns text).Pairwise (fun a b => b.confidence ≤ a.confidence)
  ∧ (_fallback_extraction dict syns text).map ExtractedSymptom.normalized
      = firstOccur ((fallback_candidates dict syns text).map ExtractedSymptom.normalized) := by
  refine ⟨?_, ?_, ?_, ?_, ?_, ?_, ?_, ?_, ?_⟩
  · have hperm : ((extract_symptoms dict syns chunks text).map
        ExtractedSymptom.normalized).Perm
        ((dedupMax (extract_candidates dict syns chunks text)).map
          ExtractedSymptom.normalized) :=
      (sortDescBy_perm _ _).map _
    rw [hperm.nodup_iff, dedupMax_eq_rec, dedupMaxRec_keys]
    exact firstOccur_nodup _
  · intro e he
    have he2 : e ∈ dedupMax (extract_candidates dict syns chunks text) :=
      (sortDescBy_perm _ _).mem_iff.mp he
    rw [dedupMax_eq_rec] at he2
    exact dedupMaxRec_max _ e he2
  · exact sortDescBy_pairwise _ _
  · intro q
    exact sortDescBy_filter ExtractedSymptom.confidence _ q
  · rw [dedupMax_eq_rec, dedupMaxRec_keys]
  · unfold _fallback_extraction
    rw [dedupFirst_eq_rec, dedupFirstRec_keys]
    exact firstOccur_nodup _
  · intro e he
    unfold _fallback_extraction at he
    rw [dedupFirst_eq_rec] at he
    have h2 := dedupFirstRec_max _ (fallback_cands_pairwise dict syns text) e he
    refine ⟨h2.1, h2.2, ?_⟩
    have h3 := h2.1
    unfold fallback_candidates at h3
    rcases List.mem_append.mp h3 with h4 | h4
    · exact Or.inl (mem_fbA h4).1
    · exact Or.inr (mem_fbB h4).1
  · unfold _fallback_extraction
    rw [dedupFirst_eq_rec]
    exact (fallback_cands_pairwise dict syns text).sublist (dedupFirstRec_sublist _)
  · unfold _fallback_extraction
    rw [dedupFirst_eq_rec, dedupFirstRec_keys]

/-- C10: every entry produced by full-mode or fallback extraction carries
a normalized token that is a key of the extractor vocabulary. -/
theorem extraction_vocab_spec (dict syns : List (Str × Str)) (chunks : List Str)
    (text : Str) :
    (∀ e ∈ extract_symptoms dict syns chunks text,
      (dict.lookup e.normalized).isSome = true)
  ∧ (∀ e ∈ _fallback_extraction dict syns text,
      (dict.lookup e.normalized).isSome = true) := by
  constructor
  · intro e he
    have he2 : e ∈ dedupMax (extract_candidates dict syns chunks text) :=
      (sortDescBy_perm _ _).mem_iff.mp he
    rw [dedupMax_eq_rec] at he2
    have he3 := (dedupMaxRec_max _ e he2).1
    unfold extract_candidates at he3
    rcases List.mem_append.mp he3 with h4 | h4
    · rcases List.mem_append.mp h4 with h5 | h5
      · exact lookup_isSome_of_key_mem dict _ (mem_exA h5)
      · exact mem_exB h5
    · exact mem_exC h4
  · intro e he
    unfold _fallback_extraction at he
    rw [dedupFirst_eq_rec] at he
    have he3 := (dedupFirstRec_max _ (fallback_cands_pairwise dict syns text) e he).1
    unfold fallback_candidates at he3
    rcases List.mem_append.mp he3 with h4 | h4
    · exact lookup_isSome_of_key_mem dict _ (mem_fbA h4).2
    · exact (mem_fbB h4).2

/-- A one-key vocabulary and a one-character input for the witnesses:
the key is the string "f" (code 102). -/
def demoDict : List (Str × Str) := [([102], [102])]

/-- The input text "f". -/
def demoText : Str := [102]

/-- The full-mode entry extracted from demoText with demoDict. -/
def demoEntry : ExtractedSymptom :=
  { symptom := [102], normalized := [102], confidence := 9/10, method := "exact_match" }

/-- The fallback entry extracted from demoText with demoDict. -/
def demoFallbackEntry : ExtractedSymptom :=
  { symptom := [102], normalized := [102], confidence := 8/10, method := "keyword_match" }

theorem demo_extract :
    extract_symptoms demoDict [] [] demoText = [demoEntry] := by
  unfold extract_symptoms
  have hc : extract_candidates demoDict [] [] demoText = [demoEntry] := rfl
  have hd : dedupMax [demoEntry] = [demoEntry] := rfl
  rw [hc, hd]
  unfold sortDescBy
  rw [List.mergeSort_singleton]

/-- Witness for C4: the single extracted entry is a candidate of maximal
confidence for its token. -/
theorem extract_symptoms_spec_witness :
    demoEntry ∈ extract_candidates demoDict [] [] demoText
      ∧ ∀ x ∈ extract_candidates demoDict [] [] demoText,
          x.normalized = demoEntry.normalized → x.confidence ≤ demoEntry.confidence :=
  (extract_symptoms_spec demoDict [] [] demoText).2.1 demoEntry
    (by rw [demo_extract]; exact List.mem_singleton_self _)

/-- Witness for C10 at the same concrete inputs, for both modes. -/
theorem extraction_vocab_spec_witness :
    (demoDict.lookup demoEntry.normalized).isSome = true
      ∧ (demoDict.lookup demoFallbackEntry.normalized).isSome = true :=
  ⟨(extraction_vocab_spec demoDict [] [] demoText).1 demoEntry
      (by rw [demo_extract]; exact List.mem_singleton_self _),
   (extraction_vocab_spec demoDict [] [] demoText).2 demoFallbackEntry
      (by
        have hf : _fallback_extraction demoDict [] demoText = [demoFallbackEntry] := rfl
        rw [hf]
        exact List.mem_singleton_self _)⟩

/-!
The RAG response engine (src/llm_engine.py).  Response text is modelled as
Lean strings; the Ollama collaborator is an optional function from the
prompt to a result or an error (none when _initialize failed and self.llm
is None); Python float formatting is rendered through integer rounding of
the rational score.
-/

/-- The specialty sub-dictionary read by format_context and
_fallback_response through dict.get with defaults. -/
structure RagSpecialty where
  specialty : Option String
  department : Option String
  location : Option String

/-- One query-result dictionary as consumed by the RAG engine. -/
structure QueryResultDoc where
  name : String
  match_percentage : Option ℚ
  urgency : Option String
  symptoms : List String
  matched_symptoms : List String
  specialty : Option RagSpecialty
  precautions : List String

/-- The engine state: the optional LLM collaborator, the default language,
and the conversation history. -/
structure RAGState where
  llm : Option (String → Except String String)
  language : String
  conversation_history : List String

/-- Python uppercase of one ASCII character. -/
def upperChar (c : Char) : Char :=
  if 'a' ≤ c ∧ c ≤ 'z' then Char.ofNat (c.toNat - 32) else c

/-- Python str.upper. -/
def strUpper (s : String) : String := String.mk (s.data.map upperChar)

/-- Rendering of format specifier :.0f on the rational score model. -/
def fmt0 (q : ℚ) : String := toString (round q)

/-- Rendering of format specifier :.1f on the rational score model. -/
def fmt1 (q : ℚ) : String :=
  toString (round (10 * q) / 10) ++ "." ++ toString (round (10 * q) % 10)

/-- The French system prompt of _get_system_prompt (lines 66-86). -/
def frSystemPrompt : String :=
  "Tu es MedBot, un assistant médical intelligent et empathique basé sur une ontologie médicale.\n\nTon rôle:\n- Analyser les symptômes du patient avec bienveillance\n- Fournir des informations médicales préliminaires basées sur le graphe de connaissances\n- Recommander la spécialité médicale appropriée\n- Toujours encourager la consultation d\x27un professionnel de santé\n\nIMPORTANT:\n- Tu n\x27es PAS un médecin, tu es un assistant d\x27orientation\n- Tes recommandations sont basées sur des données structurées, pas un diagnostic médical\n- En cas d\x27urgence (douleur thoracique, difficulté respiratoire sévère), recommande une consultation immédiate\n\nStructure ta réponse ainsi:\n1. Reconnaissance empathique des symptômes\n2. Analyse basée sur les données disponibles\n3. Recommandation de spécialité et département\n4. Niveau d\x27urgence\n5. Précautions/conseils\n6. Encouragement à consulter un professionnel"

/-- The English system prompt of _get_system_prompt (lines 88-107). -/
def enSystemPrompt : String :=
  "You are MedBot, an intelligent and empathetic medical assistant based on a medical ontology.\n\nYour role:\n- Analyze patient symptoms with compassion\n- Provide preliminary medical information based on the knowledge graph\n- Recommend the appropriate medical specialty\n- Always encourage consultation with a healthcare professional\n\nIMPORTANT:\n- You are NOT a doctor, you are a guidance assistant\n- Your recommendations are based on structured data, not a medical diagnosis\n- In case of emergency (chest pain, severe breathing difficulty), recommend immediate consultation\n\nStructure your response:\n1. Empathetic acknowledgment of symptoms\n2. Analysis based on available data\n3. Specialty and department recommendation\n4. Urgency level\n5. Precautions/advice\n6. Encouragement to consult a professional"

/-- MedBotRAG._get_system_prompt (lines 64-107). -/
def _get_system_prompt (language : String) : String :=
  if language = "fr" then frSystemPrompt else enSystemPrompt

/-- One disease block of format_context (lines 124-146). -/
def context_info (i : Nat) (d : QueryResultDoc) : String :=
  "\nMaladie #" ++ toString i ++ ": " ++ d.name
    ++ "\n- Score de correspondance: " ++ fmt1 (d.match_percentage.getD 0)
    ++ "%\n- Symptômes associés: " ++ String.intercalate ", " (d.symptoms.take 5)
    ++ "\n- Symptômes concordants: " ++ String.intercalate ", " d.matched_symptoms
    ++ "\n- Niveau d\x27urgence: " ++ d.urgency.getD "moyen"
    ++ "\n"
    ++ (match d.specialty with
        | some sp => "- Spécialité recommandée: " ++ sp.specialty.getD "N/A"
            ++ "\n- Département: " ++ sp.department.getD "N/A"
            ++ "\n- Localisation: " ++ sp.location.getD "N/A" ++ "\n"
        | none => "")
    ++ (if d.precautions = [] then ""
        else "- Précautions: " ++ String.intercalate ", " (d.precautions.take 3) ++ "\n")

/-- MedBotRAG.format_context (lines 109-148): the top three matches
rendered as context, or a fixed no-match sentence. -/
def format_context (query_results : List QueryResultDoc) : String :=
  match query_results with
  | [] => "Aucune maladie correspondante trouvée dans notre base de données."
  | _ :: _ =>
    String.intercalate "\n" ((query_results.take 3).enum.map
      (fun p => context_info (p.1 + 1) p.2))

/-- The history block of generate_response (lines 176-179): the last six
messages, alternating Patient/MedBot labels. -/
def format_history (history : List String) : String :=
  String.intercalate "\n" ((history.drop (history.length - 6)).enum.map
    (fun p => (if p.1 % 2 = 0 then "Patient" else "MedBot") ++ ": " ++ p.2))

/-- The full prompt of generate_response (lines 181-207). -/
def build_full_prompt (st : RAGState) (lang user_input : String)
    (query_results : List QueryResultDoc) : String :=
  if lang = "fr" then
    _get_system_prompt lang ++ "\n\nContexte du Graphe de Connaissances:\n"
      ++ format_context query_results
      ++ "\n\nHistorique de conversation:\n" ++ format_history st.conversation_history
      ++ "\n\nPatient: " ++ user_input ++ "\n\nAssistant MedBot:"
  else
    _get_system_prompt lang ++ "\n\nKnowledge Graph Context:\n"
      ++ format_context query_results
      ++ "\n\nConversation History:\n" ++ format_history st.conversation_history
      ++ "\n\nPatient: " ++ user_input ++ "\n\nMedBot Assistant:"

/-- The French no-match fallback text (lines 235-239). -/
def frNoMatch : String :=
  "Je n\x27ai pas trouvé de correspondance exacte pour vos symptômes dans ma base de données.\n\nJe vous recommande de consulter un médecin généraliste qui pourra vous examiner et établir un diagnostic approprié.\n\nSi vos symptômes sont sévères ou s\x27aggravent, n\x27hésitez pas à vous rendre aux urgences."

/-- The English no-match fallback text (lines 241-245). -/
def enNoMatch : String :=
  "I couldn\x27t find an exact match for your symptoms in my database.\n\nI recommend consulting a general practitioner who can examine you and make an appropriate diagnosis.\n\nIf your symptoms are severe or worsening, don\x27t hesitate to go to the emergency room."

/-- The French template pieces of _fallback_response (lines 251-272),
mirroring the incremental string build-up. -/
def frHeaderPre : String :=
  "Basé sur vos symptômes, voici mon analyse :\n\n🔍 **Condition possible**: "

def frHeaderPost (top : QueryResultDoc) : String :=
  "\n   - Correspondance: " ++ fmt0 (top.match_percentage.getD 0)
    ++ "%\n   - Urgence: " ++ strUpper (top.urgency.getD "moyenne")
    ++ "\n\n💊 **Recommandation**:\n"

def frSpecBlock (top : QueryResultDoc) : String :=
  match top.specialty with
  | some sp => "   - Spécialité: " ++ sp.specialty.getD "Médecine Générale"
      ++ "\n   - Département: " ++ sp.department.getD "Consultations Externes" ++ "\n"
  | none => ""

def frPrecBlock (top : QueryResultDoc) : String :=
  if top.precautions = [] then ""
  else "\n⚠️ **Précautions**:\n"
    ++ String.join ((top.precautions.take 3).map (fun p => "   - " ++ p ++ "\n"))

def frDisclaimer : String :=
  "\n⚕️ **Important**: Cette analyse est indicative. Consultez un professionnel de santé pour un diagnostic précis."

/-- The English template pieces of _fallback_response (lines 274-294). -/
def enHeaderPre : String :=
  "Based on your symptoms, here\x27s my analysis:\n\n🔍 **Possible Condition**: "

def enHeaderPost (top : QueryResultDoc) : String :=
  "\n   - Match: " ++ fmt0 (top.match_percentage.getD 0)
    ++ "%\n   - Urgency: " ++ strUpper (top.urgency.getD "medium")
    ++ "\n\n💊 **Recommendation**:\n"

def enSpecBlock (top : QueryResultDoc) : String :=
  match top.specialty with
  | some sp => "   - Specialty: " ++ sp.specialty.getD "General Medicine"
      ++ "\n   - Department: " ++ sp.department.getD "Outpatient Clinic" ++ "\n"
  | none => ""

def enPrecBlock (top : QueryResultDoc) : String :=
  if top.precautions = [] then ""
  else "\n⚠️ **Precautions**:\n"
    ++ String.join ((top.precautions.take 3).map (fun p => "   - " ++ p ++ "\n"))

def enDisclaimer : String :=
  "\n⚕️ **Important**: This analysis is indicative. Consult a healthcare professional for an accurate diagnosis."

/-- MedBotRAG._fallback_response (lines 225-296): the deterministic
templated response built from the top match, or the no-match text. -/
def _fallback_response (query_results : List QueryResultDoc) (language : String) :
    String :=
  match query_results with
  | [] => if language = "fr" then frNoMatch else enNoMatch
  | top :: _ =>
    if language = "fr" then
      frHeaderPre ++ top.name ++ frHeaderPost top ++ frSpecBlock top
        ++ frPrecBlock top ++ frDisclaimer
    else
      enHeaderPre ++ top.name ++ enHeaderPost top ++ enSpecBlock top
        ++ enPrecBlock top ++ enDisclaimer

/-- MedBotRAG.generate_response (lines 150-223): with no LLM the fallback
is returned at once; otherwise the collaborator is invoked on the full
prompt, a success is appended to the history, and any error is caught and
replaced by the fallback. -/
def generate_response (st : RAGState) (user_input : String)
    (query_results : List QueryResultDoc) (language : Option String) :
    String × List String :=
  match st.llm with
  | none => (_fallback_response query_results (language.getD st.language),
             st.conversation_history)
  | some invoke =>
    match invoke (build_full_prompt st (language.getD st.language) user_input
        query_results) with
    | Except.ok response =>
        (response, st.conversation_history ++ [user_input, response])
    | Except.error _ =>
        (_fallback_response query_results (language.getD st.language),
         st.conversation_history)

theorem frPrecBlock_take (top : QueryResultDoc) :
    frPrecBlock { top with precautions := top.precautions.take 3 } = frPrecBlock top := by
  unfold frPrecBlock
  by_cases hps : top.precautions = []
  · simp [hps]
  · have h3 : top.precautions.take 3 ≠ [] := by
      simp [List.take_eq_nil_iff, hps]
    simp [hps, h3, List.take_take]

theorem enPrecBlock_take (top : QueryResultDoc) :
    enPrecBlock { top with precautions := top.precautions.take 3 } = enPrecBlock top := by
  unfold enPrecBlock
  by_cases hps : top.precautions = []
  · simp [hps]
  · have h3 : top.precautions.take 3 ≠ [] := by
      simp [List.take_eq_nil_iff, hps]
    simp [hps, h3, List.take_take]

theorem fallback_cons (top : QueryResultDoc) (rest : List QueryResultDoc)
    (lang2 : String) :
    _fallback_response (top :: rest) lang2
      = if lang2 = "fr" then
          frHeaderPre ++ top.name ++ frHeaderPost top ++ frSpecBlock top
            ++ frPrecBlock top ++ frDisclaimer
        else
          enHeaderPre ++ top.name ++ enHeaderPost top ++ enSpecBlock top
            ++ enPrecBlock top ++ enDisclaimer := rfl

/-- C8: when the text-generation collaborator is unavailable (llm is None)
or its invocation raises, generate_response returns the deterministic
templated fallback, leaving the history unchanged and propagating nothing;
the non-empty-results template depends only on the first three precautions
of the top match and contains the top disease name, its (defaulted,
uppercased) urgency, and ends with the safety disclaimer; empty results
give the fixed no-match message. -/
theorem generate_response_spec (st : RAGState) (user_input : String)
    (query_results : List QueryResultDoc) (language : Option String) :
    (st.llm = none →
      generate_response st user_input query_results language
        = (_fallback_response query_results (language.getD st.language),
           st.conversation_history))
  ∧ (∀ (f : String → Except String String) (err : String), st.llm = some f →
      f (build_full_prompt st (language.getD st.language) user_input query_results)
        = Except.error err →
      generate_response st user_input query_results language
        = (_fallback_response query_results (language.getD st.language),
           st.conversation_history))
  ∧ (∀ (top : QueryResultDoc) (rest : List QueryResultDoc) (lang2 : String),
      _fallback_response (top :: rest) lang2
        = _fallback_response ({ top with precautions := top.precautions.take 3 } :: rest) lang2)
  ∧ (∀ (top : QueryResultDoc) (rest : List QueryResultDoc) (lang2 : String),
      ∃ pre post, _fallback_response (top :: rest) lang2 = pre ++ top.name ++ post)
  ∧ (∀ (top : QueryResultDoc) (rest : List QueryResultDoc) (lang2 : String),
      ∃ pre post, _fallback_response (top :: rest) lang2
        = pre ++ strUpper (top.urgency.getD (if lang2 = "fr" then "moyenne" else "medium"))
            ++ post)
  ∧ (∀ (top : QueryResultDoc) (rest : List QueryResultDoc) (lang2 : String),
      ∃ pre, _fallback_response (top :: rest) lang2
        = pre ++ (if lang2 = "fr" then frDisclaimer else enDisclaimer))
  ∧ (∀ lang2 : String, _fallback_response [] lang2
      = if lang2 = "fr" then frNoMatch else enNoMatch) := by
  refine ⟨?_, ?_, ?_, ?_, ?_, ?_, ?_⟩
  · intro h
    unfold generate_response
    rw [h]
  · intro f err h1 h2
    unfold generate_response
    rw [h1]
    show (match f (build_full_prompt st (language.getD st.language) user_input
          query_results) with
      | Except.ok response => (response, st.conversation_history ++ [user_input, response])
      | Except.error _ => (_fallback_response query_results (language.getD st.language),
          st.conversation_history)) = _
    rw [h2]
  · intro top rest lang2
    rw [fallback_cons, fallback_cons]
    by_cases hl : lang2 = "fr"
    · rw [if_pos hl, if_pos hl, frPrecBlock_take]
      rfl
    · rw [if_neg hl, if_neg hl, enPrecBlock_take]
      rfl
  · intro top rest lang2
    rw [fallback_cons]
    by_cases hl : lang2 = "fr"
    · rw [if_pos hl]
      refine ⟨frHeaderPre,
        frHeaderPost top ++ frSpecBlock top ++ frPrecBlock top ++ frDisclaimer, ?_⟩
      simp only [String.append_assoc]
    · rw [if_neg hl]
      refine ⟨enHeaderPre,
        enHeaderPost top ++ enSpecBlock top ++ enPrecBlock top ++ enDisclaimer, ?_⟩
      simp only [String.append_assoc]
  · intro top rest lang2
    rw [fallback_cons]
    by_cases hl : lang2 = "fr"
    · rw [if_pos hl, if_pos hl]
      unfold frHeaderPost
      refine ⟨frHeaderPre ++ top.name ++ "\n   - Correspondance: "
          ++ fmt0 (top.match_percentage.getD 0) ++ "%\n   - Urgence: ",
        "\n\n💊 **Recommandation**:\n" ++ frSpecBlock top ++ frPrecBlock top
          ++ frDisclaimer, ?_⟩
      simp only [String.append_assoc]
    · rw [if_neg hl, if_neg hl]
      unfold enHeaderPost
      refine ⟨enHeaderPre ++ top.name ++ "\n   - Match: "
          ++ fmt0 (top.match_percentage.getD 0) ++ "%\n   - Urgency: ",
        "\n\n💊 **Recommendation**:\n" ++ enSpecBlock top ++ enPrecBlock top
          ++ enDisclaimer, ?_⟩
      simp only [String.append_assoc]
  · intro top rest lang2
    rw [fallback_cons]
    by_cases hl : lang2 = "fr"
    · rw [if_pos hl, if_pos hl]
      exact ⟨frHeaderPre ++ top.name ++ frHeaderPost top ++ frSpecBlock top
          ++ frPrecBlock top, rfl⟩
    · rw [if_neg hl, if_neg hl]
      exact ⟨enHeaderPre ++ top.name ++ enHeaderPost top ++ enSpecBlock top
          ++ enPrecBlock top, rfl⟩
  · intro lang2
    rfl

/-- Witness for C8: with no collaborator, and with one that always raises,
generate_response returns the fallback and the untouched history. -/
theorem generate_response_spec_witness :
    generate_response { llm := none, language := "fr", conversation_history := [] }
        "Bonjour" [] none
      = (_fallback_response [] "fr", [])
    ∧ generate_response
        { llm := some (fun _ => Except.error "connection refused"),
          language := "en", conversation_history := [] } "hello" [] none
      = (_fallback_response [] "en", []) :=
  ⟨(generate_response_spec
      { llm := none, language := "fr", conversation_history := [] }
      "Bonjour" [] none).1 rfl,
   (generate_response_spec
      { llm := some (fun _ => Except.error "connection refused"),
        language := "en", conversation_history := [] }
      "hello" [] none).2.1 (fun _ => Except.error "connection refused")
      "connection refused" rfl rfl⟩

end MedBot
